import Mathlib

/-!
Verification of the pageres capture-orchestration pipeline (src/index.js).

The JavaScript source is shallowly embedded: every pure computation of the
pipeline (token partitioning, URL normalization, filename templating, stderr
classification, the per-source run loop with its statistics) is translated
into executable Lean definitions. Callback-based asynchronous code is
modelled by explicit state passing over a `RunState`; the external
collaborators (the phantomjs binary, the get-res and viewport-list lookup
services, the filesystem, the slugify-url and parse-cookie helpers) are
parameters collected in an `ExternalEnv` record, exactly as the spec treats
them as external interfaces.
-/

namespace Pageres

/-- Prefix test on character lists: `listStartsWith p l` holds when `p` is a
prefix of `l`.  Models the anchored part of the JS regexes (`^...`) and
`String.prototype` prefix checks. -/
def listStartsWith : List Char → List Char → Bool
  | [], _ => true
  | _ :: _, [] => false
  | p :: ps, c :: cs => p = c && listStartsWith ps cs

/-- String-level prefix test. -/
def strStartsWith (p s : String) : Bool :=
  listStartsWith p.data s.data

/-- Substring test: does `pat` occur anywhere in `l`?  Models an unanchored
JS regex of plain characters, e.g. `/ phantomjs\[/.test(data)`. -/
def containsSub (pat : List Char) : List Char → Bool
  | [] => listStartsWith pat []
  | c :: rest => listStartsWith pat (c :: rest) || containsSub pat rest

/-- Longest digit prefix of a character list, with the rest.  Used to model
the `\d{3,4}` pieces of the resolution pattern. -/
def takeDigits : List Char → List Char × List Char
  | [] => ([], [])
  | c :: rest =>
    if c.isDigit then
      let p := takeDigits rest
      (c :: p.1, p.2)
    else ([], c :: rest)

/-- Full-string match of the resolution pattern `/^\d{3,4}x\d{3,4}$/i` from
`Pageres.prototype.run` (src/index.js line 107).  The `i` flag only affects
the literal `x`.  Equivalent to the backtracking regex because a digit run
longer than four can never be followed by the required `x`. -/
def isResToken (s : String) : Bool :=
  let p1 := takeDigits s.data
  match p1.2 with
  | [] => false
  | c :: r2 =>
    (c = 'x' || c = 'X') &&
      (let p2 := takeDigits r2
       decide (3 ≤ p1.1.length) && decide (p1.1.length ≤ 4) &&
       decide (3 ≤ p2.1.length) && decide (p2.1.length ≤ 4) && p2.2.isEmpty)

/-- First-occurrence deduplication, keeping order, as lodash `_.uniq` does
(src/index.js lines 107, 139, 140, 207). `seen` collects elements already
emitted. -/
def uniqAux (seen : List String) : List String → List String
  | [] => []
  | x :: xs => if x ∈ seen then uniqAux seen xs else x :: uniqAux (x :: seen) xs

/-- lodash `_.uniq`: keep the first occurrence of each element. -/
def uniq (l : List String) : List String :=
  uniqAux [] l

/-- lodash `_.difference(a, b)`: the elements of `a` not occurring in `b`,
in order, duplicates kept (src/index.js line 108). -/
def listDifference (a b : List String) : List String :=
  a.filter (fun x => decide (x ∉ b))

/-- The explicit-size part of a source's token list:
`_.uniq(src.sizes.filter(/./.test, /^\d{3,4}x\d{3,4}$/i))`
(src/index.js line 107; the filter callback is `RegExp.prototype.test`
bound to the resolution regex). -/
def partSizes (tokens : List String) : List String :=
  uniq (tokens.filter isResToken)

/-- The keyword part of a source's token list:
`_.difference(src.sizes, sizes)` (src/index.js line 108). -/
def partKeywords (tokens : List String) : List String :=
  listDifference tokens (partSizes tokens)

/-- Trim of a character list: drop leading and trailing whitespace.  Models
`String.prototype.trim()` as used on the stderr data (src/index.js line 317)
and on template placeholder names. -/
def trimChars (l : List Char) : List Char :=
  ((l.dropWhile Char.isWhitespace).reverse.dropWhile Char.isWhitespace).reverse

/-- Character class `[a-z0-9.+-]` of node's legacy `url.parse` protocol
pattern `/^[a-z0-9.+-]+:/i`. -/
def isProtoChar (c : Char) : Bool :=
  c.isAlpha || c.isDigit || c = '.' || c = '+' || c = '-'

/-- After at least one protocol character, scan to the terminating colon. -/
def protoTail : List Char → Bool
  | [] => false
  | ':' :: _ => true
  | c :: rest => isProtoChar c && protoTail rest

/-- One or more protocol characters followed by a colon. -/
def hasProtocolChars : List Char → Bool
  | [] => false
  | c :: rest => isProtoChar c && protoTail rest

/-- Whether `urlMod.parse(newUrl).protocol` is set (src/index.js line 268):
node's legacy parser trims the string and then matches
`/^[a-z0-9.+-]+:/i`.  Trailing whitespace cannot affect an anchored prefix
match, so only the leading trim is modelled. -/
def hasProtocol (s : String) : Bool :=
  hasProtocolChars (s.data.dropWhile Char.isWhitespace)

/-- `.replace(/^(?:https?:\/\/)?www\./, '')` from src/index.js line 272:
strip one leading `http://www.`, `https://www.` or `www.`; anything else is
left unchanged (the optional scheme group only matches when `www.` follows). -/
def stripSchemeWwwChars (cs : List Char) : List Char :=
  if listStartsWith "http://www.".data cs then cs.drop 11
  else if listStartsWith "https://www.".data cs then cs.drop 12
  else if listStartsWith "www.".data cs then cs.drop 4
  else cs

/-- String-level wrapper of `stripSchemeWwwChars`. -/
def stripSchemeWww (s : String) : String :=
  String.mk (stripSchemeWwwChars s.data)

/-- `data.replace(/^WARN: /, '')` (src/index.js line 313): drop the 6
character prefix when present, otherwise leave the text unchanged. -/
def stripWarn (data : String) : String :=
  if listStartsWith "WARN: ".data data.data then String.mk (data.data.drop 6)
  else data

/-- `size.split(/x/i)` (src/index.js lines 280 and 281): split on every
`x` or `X`.  `acc` holds the current field in reverse. -/
def splitXAux (acc : List Char) : List Char → List String
  | [] => [String.mk acc.reverse]
  | c :: rest =>
    if c = 'x' || c = 'X' then String.mk acc.reverse :: splitXAux [] rest
    else splitXAux (c :: acc) rest

/-- `size.split(/x/i)` on a string. -/
def splitX (s : String) : List String :=
  splitXAux [] s.data

/-- Interpolation engine for lodash `_.template` restricted to plain
`<%= name %>` placeholders, which is all the filename templates use
(src/index.js lines 271 to 276).  The first argument maps a placeholder
name to its value; the `Option` state is `none` outside a placeholder and
`some acc` inside one, `acc` holding the name read so far in reverse. -/
def renderTplChars (vars : String → String) : Option (List Char) → List Char → List Char
  | none, [] => []
  | some _, [] => []
  | none, '<' :: '%' :: '=' :: rest => renderTplChars vars (some []) rest
  | none, c :: rest => c :: renderTplChars vars none rest
  | some acc, '%' :: '>' :: rest =>
    (vars (String.mk (trimChars acc.reverse))).data ++ renderTplChars vars none rest
  | some acc, c :: rest => renderTplChars vars (some (c :: acc)) rest

/-- Render a `<%= name %>` template against a variable assignment. -/
def renderTemplate (tpl : String) (vars : String → String) : String :=
  String.mk (renderTplChars vars none tpl.data)

/-- The variable assignment built at src/index.js lines 271 to 276:
`url`, `size`, `crop` and `date`. -/
def templateVars (u s c d : String) : String → String := fun name =>
  if name = "url" then u
  else if name = "size" then s
  else if name = "crop" then c
  else if name = "date" then d
  else ""

/-- A structured cookie descriptor as produced by the external
`parse-cookie-phantomjs` helper; its internal shape is irrelevant to the
core, so it is kept as its raw representation. -/
abbrev Cookie := String

/-- One element of the `cookies` option: either a raw header string or an
already-structured descriptor (src/index.js lines 41 to 43). -/
inductive CookieInput
  | str (s : String)
  | obj (c : Cookie)
deriving DecidableEq

/-- The options object a caller passes to the constructor, before the
constructor normalizes it.  Absent JS properties are `none`. -/
structure RawOptions where
  filename : Option String
  crop : Bool
  delay : Option Nat
  cookies : Option (List CookieInput)
deriving DecidableEq

/-- Normalized options as stored on the instance after the constructor ran
(src/index.js lines 39 to 43). -/
structure Options where
  filename : String
  crop : Bool
  delay : Option Nat
  cookies : List Cookie
deriving DecidableEq

/-- Per-source option overrides; `assign({}, self.options, src.options)`
takes a source's own field whenever it is present (src/index.js line 106). -/
structure OptionOverrides where
  filename : Option String
  crop : Option Bool
  delay : Option Nat
  cookies : Option (List Cookie)
deriving DecidableEq

/-- `assign({}, self.options, src.options)` (src/index.js line 106). -/
def mergeOptions (g : Options) (o : Option OptionOverrides) : Options :=
  match o with
  | none => g
  | some ov =>
    { filename := ov.filename.getD g.filename
      crop := ov.crop.getD g.crop
      delay := ov.delay <|> g.delay
      cookies := ov.cookies.getD g.cookies }

/-- One ranked entry returned by the popular-resolutions lookup `get-res`:
`{ item: "WIDTHxHEIGHT" }` (consumed at src/index.js lines 172 to 175). -/
structure ResEntry where
  item : String
deriving DecidableEq

/-- One entry returned by the `viewport-list` lookup:
`{ size: "WIDTHxHEIGHT" }` (consumed at src/index.js lines 202 to 205). -/
structure ViewportEntry where
  size : String
deriving DecidableEq

/-- The external collaborators of the pipeline, exactly the interfaces the
spec lists: phantomjs availability, the two lookup services (which can
fail), the filesystem existence check, the `file-url`, `slugify-url`,
`parse-cookie-phantomjs` helpers and the `easydate` current date. -/
structure ExternalEnv where
  phantomjsAvailable : Bool
  getRes : Except String (List ResEntry)
  viewport : List String → Except String (List ViewportEntry)
  fileExists : String → Bool
  fileUrl : String → String
  slugify : String → String
  parseCookie : String → Cookie
  today : String

/-- A registered source: `{ url, sizes, options }` pushed by
`Pageres.prototype.src` (src/index.js lines 65 to 69).  A missing (falsy)
URL is modelled by the empty string, the only falsy JS string. -/
structure Source where
  url : String
  sizes : List String
  options : Option OptionOverrides
deriving DecidableEq

/-- Instance state after construction: normalized options, registered
sources and the optional destination directory. -/
structure PageresState where
  options : Options
  src : List Source
  dest : Option String

/-- The default filename template (src/index.js line 40). -/
def defaultFilenameTemplate : String :=
  "<%= url %>-<%= size %><%= crop %>"

/-- A caller-supplied options object with no recognized property set. -/
def emptyRawOptions : RawOptions :=
  ⟨none, false, none, none⟩

/-- The constructor body when reached with a proper `new` call
(src/index.js lines 37 to 48): copy the options, default the filename
template (`||` also replaces an empty string, the falsy string), and parse
every raw cookie string. -/
def pageresNew (env : ExternalEnv) (options : Option RawOptions) : PageresState :=
  let raw := options.getD emptyRawOptions
  { options :=
      { filename :=
          match raw.filename with
          | some f => if f = "" then defaultFilenameTemplate else f
          | none => defaultFilenameTemplate
        crop := raw.crop
        delay := raw.delay
        cookies := (raw.cookies.getD []).map fun ci =>
          match ci with
          | CookieInput.str s => env.parseCookie s
          | CookieInput.obj c => c }
    src := []
    dest := none }

/-- `Pageres(options)` invoked as a plain function call: the guard at
src/index.js lines 33 to 35 runs `return new Pageres();`, forwarding no
arguments. -/
def pageresPlainCall (env : ExternalEnv) (_options : Option RawOptions) : PageresState :=
  pageresNew env none

/-- `Pageres.prototype.src(url, sizes, options)` in its setter form
(src/index.js lines 65 to 71). -/
def srcAdd (p : PageresState) (url : String) (sizes : List String)
    (options : Option OptionOverrides) : PageresState :=
  { p with src := p.src ++ [⟨url, sizes, options⟩] }

/-- URL normalization from `Pageres.prototype._generate`
(src/index.js lines 260 to 269): an existing file becomes its `file://`
form; otherwise a leading `localhost` gets `http://` prepended
(`replace(/^localhost/, 'http://$&')`), and then a string without a URL
scheme gets `http://` prepended. -/
def normalizeUrl (env : ExternalEnv) (url : String) : String :=
  if env.fileExists url then env.fileUrl url
  else
    let u1 := if strStartsWith "localhost" url then "http://" ++ url else url
    if hasProtocol u1 then u1 else "http://" ++ u1

/-- One renderer job: the subprocess spawn of `_generate`/`_phantom`
together with the stream's `filename` tag (src/index.js lines 259 to 286).
`srcUrl` is the registered URL, `url` the normalized one handed to the
renderer. -/
structure Job where
  srcUrl : String
  url : String
  size : String
  filename : String
  width : String
  height : String
  crop : Bool
  delay : Nat
deriving DecidableEq

/-- `Pageres.prototype._generate(url, size, options)`
(src/index.js lines 259 to 286): normalize the URL, render the filename
template over `url`/`size`/`crop`/`date` (the `url` value is the slug of
the pre-normalization URL for files and of the normalized URL otherwise,
with a leading scheme-plus-`www.` stripped), split the size on `x` into
width and height, and spawn the renderer with `delay` defaulted to 0. -/
def generate (env : ExternalEnv) (url size : String) (options : Options) : Job :=
  let isFile := env.fileExists url
  let newUrl := normalizeUrl env url
  let slug := stripSchemeWww (env.slugify (if isFile then url else newUrl))
  let filename := renderTemplate (options.filename ++ ".png")
    (templateVars slug size (if options.crop then "-cropped" else "") env.today)
  { srcUrl := url
    url := newUrl
    size := size
    filename := filename
    width := (splitX size).getD 0 ""
    height := (splitX size).getD 1 ""
    crop := options.crop
    delay := options.delay.getD 0 }

/-- One lookup through a `memoize-async` wrapper: hit the cache keyed on the
serialized arguments, or invoke the underlying service.  The returned flag
records whether the underlying service was actually invoked. -/
def memoizeCall {α : Type} (cache : List (String × α)) (key : String)
    (f : Unit → α) : α × Bool :=
  match cache.lookup key with
  | some v => (v, false)
  | none => (f (), true)

/-- Serialization of a keyword list into a memoization key. -/
def serializeKeys (l : List String) : String :=
  l.foldl (fun a s => a ++ s ++ ";") ""

/-- Mutable run state accumulated across the source iteration:
`self._sizes`, `self._urls`, `self._items`, `self._resolutions`
(src/index.js lines 45 to 48 and 170), the errors handed to the run
callback, and instrumentation counting how often each underlying lookup
service is invoked. -/
structure RunState where
  sizes : List String
  urls : List String
  items : List Job
  errors : List String
  resolutions : Option (List ResEntry)
  popularCalls : Nat
  viewportCalls : List (List String)
deriving DecidableEq

/-- The run state before any source is processed. -/
def initRunState : RunState :=
  ⟨[], [], [], [], none, 0, []⟩

/-- `Pageres.prototype._resolution` (src/index.js lines 160 to 179).
`var g = memoize(getRes);` constructs a fresh, empty memoization cache on
every call, so the lookup goes through `memoizeCall []`.  On success every
ranked entry's `item` is pushed onto the running size list and one job is
generated per entry, in lookup order; on failure the error is handed to
the callback. -/
def resolutionStep (env : ExternalEnv) (url : String) (options : Options)
    (st : RunState) : RunState :=
  let call := memoizeCall [] "[]" (fun _ => env.getRes)
  let st1 := { st with popularCalls := st.popularCalls + (if call.2 then 1 else 0) }
  match call.1 with
  | Except.error e => { st1 with errors := st1.errors ++ [e] }
  | Except.ok entries =>
    { st1 with
      resolutions := some entries
      sizes := st1.sizes ++ entries.map ResEntry.item
      items := st1.items ++ entries.map (fun e => generate env url e.item options) }

/-- `Pageres.prototype._viewport` (src/index.js lines 192 to 213).
`var v = memoize(viewport);` likewise builds a fresh cache on every call.
On success each returned entry's `size` is pushed onto the running size
list and appended to the explicit sizes, then one job is generated per
element of the deduplicated union; on failure the error is handed to the
callback. -/
def viewportStep (env : ExternalEnv) (url : String) (sizes keywords : List String)
    (options : Options) (st : RunState) : RunState :=
  let call := memoizeCall [] (serializeKeys keywords) (fun _ => env.viewport keywords)
  let st1 := { st with
    viewportCalls := st.viewportCalls ++ (if call.2 then [keywords] else []) }
  match call.1 with
  | Except.error e => { st1 with errors := st1.errors ++ [e] }
  | Except.ok entries =>
    let newSizes := entries.map ViewportEntry.size
    { st1 with
      sizes := st1.sizes ++ newSizes
      items := st1.items ++ (uniq (sizes ++ newSizes)).map
        (fun s => generate env url s options) }

/-- The body of the explicit-size loop at src/index.js lines 127 to 130:
push the size onto the running size list and generate one job. -/
def plainStep (env : ExternalEnv) (url : String) (options : Options)
    (s2 : RunState) (size : String) : RunState :=
  { s2 with
    sizes := s2.sizes ++ [size]
    items := s2.items ++ [generate env url size options] }

/-- The body of the `eachAsync` iterator in `Pageres.prototype.run`
(src/index.js lines 105 to 132) for one source: merge the options,
partition the tokens, fail the run on a falsy URL, record the URL, then
dispatch to the popular-resolutions branch (`!sizes.length &&
keywords.indexOf('w3counter') !== -1`), the viewport branch
(`keywords.length`) or the plain explicit-size loop.  The callback style of
the source is modelled by sequential state passing; `each-async` fires all
iterators, so an error does not stop later sources from being processed. -/
def processSrc (env : ExternalEnv) (globalOptions : Options) (st : RunState)
    (src : Source) : RunState :=
  let options := mergeOptions globalOptions src.options
  let sizes := partSizes src.sizes
  let keywords := partKeywords src.sizes
  if src.url = "" then { st with errors := st.errors ++ ["URL required"] }
  else
    let st1 := { st with urls := st.urls ++ [src.url] }
    if sizes = [] ∧ "w3counter" ∈ keywords then
      resolutionStep env src.url options st1
    else if keywords ≠ [] then
      viewportStep env src.url sizes keywords options st1
    else
      sizes.foldl (plainStep env src.url options) st1

/-- `this.stats` as filled at src/index.js lines 139 and 140:
`screenshots = _.uniq(self._sizes).length` and
`urls = _.uniq(self._urls).length`. -/
structure RunStats where
  screenshots : Nat
  urls : Nat
deriving DecidableEq

/-- The fatal message produced when phantomjs is unavailable
(src/index.js line 101). -/
def phantomMissingMsg : String :=
  "The automatic install of PhantomJS, which is used for generating the screenshots, seems to have failed.\nTry installing it manually: http://phantomjs.org/download.html"

/-- Outcome of `Pageres.prototype.run`: the accumulated state, the stats
(computed only when no source produced an error, src/index.js lines 133 to
141) and the value handed to the callback — the item list on success, the
error otherwise. -/
structure RunOutcome where
  state : RunState
  stats : Option RunStats
  result : Except String (List Job)

/-- `Pageres.prototype.run(cb)` (src/index.js lines 97 to 149), without the
save stage: abort when phantomjs is missing, iterate the registered
sources, and afterwards either report the first error or compute the stats
and return the collected items. -/
def runPageres (env : ExternalEnv) (p : PageresState) : RunOutcome :=
  if env.phantomjsAvailable = false then
    ⟨initRunState, none, Except.error phantomMissingMsg⟩
  else
    let st := p.src.foldl (processSrc env p.options) initRunState
    match st.errors with
    | [] => ⟨st, some ⟨(uniq st.sizes).length, (uniq st.urls).length⟩, Except.ok st.items⟩
    | e :: _ => ⟨st, none, Except.error e⟩

/-- The three ways a renderer stderr chunk is handled. -/
inductive StderrAction
  | ignore
  | warn (msg : String)
  | fatal (msg : String)
deriving DecidableEq

/-- The stderr handler of `Pageres.prototype._phantom`
(src/index.js lines 307 to 320): discard chunks matching the engine banner
`/ phantomjs\[/`; re-emit `WARN: `-prefixed chunks as a `warn` event with
the prefix stripped; emit any other chunk with non-blank trim as an
`error` event carrying the chunk's text; silently drop blank chunks. -/
def classifyStderr (data : String) : StderrAction :=
  if containsSub " phantomjs[".data data.data then StderrAction.ignore
  else if listStartsWith "WARN: ".data data.data then StderrAction.warn (stripWarn data)
  else if (trimChars data.data).length ≠ 0 then StderrAction.fatal data
  else StderrAction.ignore

/-- Concatenating strings concatenates their character lists. -/
theorem data_append (s t : String) : (s ++ t).data = s.data ++ t.data := by
  cases s
  cases t
  rfl

/-- Membership in the deduplication worker: an element appears exactly when
it is in the remaining input and not already seen. -/
theorem mem_uniqAux (t : String) (seen l : List String) :
    t ∈ uniqAux seen l ↔ (t ∈ l ∧ t ∉ seen) := by
  induction l generalizing seen with
  | nil => simp [uniqAux]
  | cons x xs ih =>
    by_cases hx : x ∈ seen
    · simp only [uniqAux, if_pos hx, ih, List.mem_cons]
      constructor
      · tauto
      · rintro ⟨h1 | h1, h2⟩
        · subst h1
          exact absurd hx h2
        · exact ⟨h1, h2⟩
    · simp only [uniqAux, if_neg hx, List.mem_cons, ih]
      by_cases ht : t = x
      · subst ht
        tauto
      · tauto

/-- Membership in `uniq` is membership in the input. -/
theorem mem_uniq (t : String) (l : List String) : t ∈ uniq l ↔ t ∈ l := by
  rw [uniq, mem_uniqAux]
  simp

/-- The deduplication worker never repeats an element. -/
theorem nodup_uniqAux (seen l : List String) : (uniqAux seen l).Nodup := by
  induction l generalizing seen with
  | nil => simp [uniqAux]
  | cons x xs ih =>
    by_cases hx : x ∈ seen
    · rw [uniqAux, if_pos hx]
      exact ih seen
    · rw [uniqAux, if_neg hx]
      refine List.nodup_cons.mpr ⟨?_, ih (x :: seen)⟩
      intro hmem
      exact ((mem_uniqAux x (x :: seen) xs).mp hmem).2 (List.mem_cons_self x seen)

/-- `uniq` returns a duplicate-free list. -/
theorem nodup_uniq (l : List String) : (uniq l).Nodup :=
  nodup_uniqAux [] l

/-- A string with `http://` glued in front always carries a scheme. -/
theorem hasProtocol_http_append (u : String) :
    hasProtocol ("http://" ++ u) = true := by
  have h : ("http://" ++ u).data = 'h' :: 't' :: 't' :: 'p' :: ':' :: '/' :: '/' :: u.data := by
    rw [data_append]
    rfl
  unfold hasProtocol
  rw [h]
  rfl

/-- A fresh (empty) memoization cache never hits: the underlying service is
invoked. -/
theorem memoizeCall_nil {α : Type} (key : String) (f : Unit → α) :
    memoizeCall ([] : List (String × α)) key f = (f (), true) := rfl

/-- The generated job records the requested size verbatim. -/
theorem generate_size (env : ExternalEnv) (url size : String) (o : Options) :
    (generate env url size o).size = size := rfl

/-- The generated job records the registered source URL verbatim. -/
theorem generate_srcUrl (env : ExternalEnv) (url size : String) (o : Options) :
    (generate env url size o).srcUrl = url := rfl

/-- The URL a job hands to the renderer is the normalized one. -/
theorem generate_url (env : ExternalEnv) (url size : String) (o : Options) :
    (generate env url size o).url = normalizeUrl env url := rfl

/-- The viewport branch never touches the popular-resolutions counter. -/
theorem viewportStep_popularCalls (env : ExternalEnv) (url : String)
    (sizes keywords : List String) (o : Options) (st : RunState) :
    (viewportStep env url sizes keywords o st).popularCalls = st.popularCalls := by
  unfold viewportStep
  rcases h : env.viewport keywords with e | entries <;> simp [memoizeCall_nil, h]

/-- The popular-resolutions branch appends at most its own error. -/
theorem resolutionStep_errors (env : ExternalEnv) (url : String) (o : Options)
    (st : RunState) :
    ∃ l, (resolutionStep env url o st).errors = st.errors ++ l := by
  unfold resolutionStep
  rcases h : env.getRes with e | entries
  · exact ⟨[e], by simp [memoizeCall_nil, h]⟩
  · exact ⟨[], by simp [memoizeCall_nil, h]⟩

/-- The viewport branch appends at most its own error. -/
theorem viewportStep_errors (env : ExternalEnv) (url : String)
    (sizes keywords : List String) (o : Options) (st : RunState) :
    ∃ l, (viewportStep env url sizes keywords o st).errors = st.errors ++ l := by
  unfold viewportStep
  rcases h : env.viewport keywords with e | entries
  · exact ⟨[e], by simp [memoizeCall_nil, h]⟩
  · exact ⟨[], by simp [memoizeCall_nil, h]⟩

/-- The explicit-size loop never touches the error list. -/
theorem plainFold_errors (env : ExternalEnv) (url : String) (o : Options)
    (ls : List String) (st : RunState) :
    (ls.foldl (plainStep env url o) st).errors = st.errors := by
  induction ls generalizing st with
  | nil => rfl
  | cons x xs ih =>
    rw [List.foldl_cons, ih]
    rfl

/-- Processing a source only ever appends to the error list. -/
theorem processSrc_errors_mono (env : ExternalEnv) (o : Options) (st : RunState)
    (src : Source) :
    ∃ l, (processSrc env o st src).errors = st.errors ++ l := by
  unfold processSrc
  by_cases hu : src.url = ""
  · exact ⟨["URL required"], by simp [hu]⟩
  · simp only [if_neg hu]
    by_cases hb : partSizes src.sizes = [] ∧ "w3counter" ∈ partKeywords src.sizes
    · rw [if_pos hb]
      exact resolutionStep_errors env src.url _ _
    · rw [if_neg hb]
      by_cases hk : partKeywords src.sizes ≠ []
      · rw [if_pos hk]
        exact viewportStep_errors env src.url _ _ _ _
      · rw [if_neg hk]
        exact ⟨[], by rw [plainFold_errors, List.append_nil]⟩

/-- A source with a falsy URL is reported as `URL required` and nothing
else happens to the state. -/
theorem processSrc_errors_missing (env : ExternalEnv) (o : Options) (st : RunState)
    (src : Source) (h : src.url = "") :
    processSrc env o st src = { st with errors := st.errors ++ ["URL required"] } := by
  simp [processSrc, h]

/-- The source iteration only ever appends to the error list. -/
theorem runFold_errors_mono (env : ExternalEnv) (o : Options) (srcs : List Source)
    (st : RunState) :
    ∃ l, (srcs.foldl (processSrc env o) st).errors = st.errors ++ l := by
  induction srcs generalizing st with
  | nil => exact ⟨[], (List.append_nil _).symm⟩
  | cons s ss ih =>
    obtain ⟨l1, h1⟩ := processSrc_errors_mono env o st s
    obtain ⟨l2, h2⟩ := ih (processSrc env o st s)
    exact ⟨l1 ++ l2, by rw [List.foldl_cons, h2, h1, List.append_assoc]⟩

/-- If some registered source has a falsy URL, the iteration ends with a
non-empty error list. -/
theorem runFold_missing_url (env : ExternalEnv) (o : Options) (srcs : List Source)
    (st : RunState) (h : ∃ s ∈ srcs, s.url = "") :
    (srcs.foldl (processSrc env o) st).errors ≠ [] := by
  induction srcs generalizing st with
  | nil => simp at h
  | cons s ss ih =>
    obtain ⟨s0, hs0, hu⟩ := h
    rcases List.mem_cons.mp hs0 with h1 | h1
    · subst h1
      obtain ⟨l, hl⟩ := runFold_errors_mono env o ss (processSrc env o st s0)
      rw [List.foldl_cons, hl, processSrc_errors_missing env o st s0 hu]
      simp
    · rw [List.foldl_cons]
      exact ih (processSrc env o st s) ⟨s0, h1, hu⟩

/-- Jobs appended by the explicit-size loop carry the processed URL. -/
theorem plainFold_items (env : ExternalEnv) (url : String) (o : Options)
    (ls : List String) (st : RunState) :
    ∀ j ∈ (ls.foldl (plainStep env url o) st).items, j ∈ st.items ∨ j.srcUrl = url := by
  induction ls generalizing st with
  | nil => exact fun j hj => Or.inl hj
  | cons x xs ih =>
    intro j hj
    rw [List.foldl_cons] at hj
    rcases ih (plainStep env url o st x) j hj with hmem | hurl
    · rcases List.mem_append.mp hmem with hmem2 | hmem2
      · exact Or.inl hmem2
      · rcases List.mem_singleton.mp hmem2 with rfl
        exact Or.inr (generate_srcUrl env url x o)
    · exact Or.inr hurl

/-- Jobs appended by the popular-resolutions branch carry the processed
URL. -/
theorem resolutionStep_items (env : ExternalEnv) (url : String) (o : Options)
    (st : RunState) :
    ∀ j ∈ (resolutionStep env url o st).items, j ∈ st.items ∨ j.srcUrl = url := by
  unfold resolutionStep
  rcases h : env.getRes with e | entries <;> simp only [memoizeCall_nil, h] <;> intro j hj
  · exact Or.inl hj
  · rcases List.mem_append.mp hj with hmem | hmem
    · exact Or.inl hmem
    · obtain ⟨e0, _, he0⟩ := List.mem_map.mp hmem
      exact Or.inr (he0 ▸ generate_srcUrl env url e0.item o)

/-- Jobs appended by the viewport branch carry the processed URL. -/
theorem viewportStep_items (env : ExternalEnv) (url : String)
    (sizes keywords : List String) (o : Options) (st : RunState) :
    ∀ j ∈ (viewportStep env url sizes keywords o st).items,
      j ∈ st.items ∨ j.srcUrl = url := by
  unfold viewportStep
  rcases h : env.viewport keywords with e | entries <;> simp only [memoizeCall_nil, h] <;>
    intro j hj
  · exact Or.inl hj
  · rcases List.mem_append.mp hj with hmem | hmem
    · exact Or.inl hmem
    · obtain ⟨s0, _, hs0⟩ := List.mem_map.mp hmem
      exact Or.inr (hs0 ▸ generate_srcUrl env url s0 o)

/-- Every job produced while processing a source either predates the source
or carries that source's (non-falsy) URL. -/
theorem processSrc_items (env : ExternalEnv) (o : Options) (st : RunState)
    (src : Source) :
    ∀ j ∈ (processSrc env o st src).items,
      j ∈ st.items ∨ (j.srcUrl = src.url ∧ src.url ≠ "") := by
  unfold processSrc
  by_cases hu : src.url = ""
  · simp only [if_pos hu]
    exact fun j hj => Or.inl hj
  · simp only [if_neg hu]
    by_cases hb : partSizes src.sizes = [] ∧ "w3counter" ∈ partKeywords src.sizes
    · rw [if_pos hb]
      intro j hj
      rcases resolutionStep_items env src.url _ _ j hj with hmem | hurl
      · exact Or.inl hmem
      · exact Or.inr ⟨hurl, hu⟩
    · rw [if_neg hb]
      by_cases hk : partKeywords src.sizes ≠ []
      · rw [if_pos hk]
        intro j hj
        rcases viewportStep_items env src.url _ _ _ _ j hj with hmem | hurl
        · exact Or.inl hmem
        · exact Or.inr ⟨hurl, hu⟩
      · rw [if_neg hk]
        intro j hj
        rcases plainFold_items env src.url _ _ _ j hj with hmem | hurl
        · exact Or.inl hmem
        · exact Or.inr ⟨hurl, hu⟩

/-- Across the whole iteration, every produced job carries a non-falsy
source URL. -/
theorem runFold_items (env : ExternalEnv) (o : Options) (srcs : List Source)
    (st : RunState) (hst : ∀ j ∈ st.items, j.srcUrl ≠ "") :
    ∀ j ∈ (srcs.foldl (processSrc env o) st).items, j.srcUrl ≠ "" := by
  induction srcs generalizing st with
  | nil => exact hst
  | cons s ss ih =>
    rw [List.foldl_cons]
    refine ih (processSrc env o st s) ?_
    intro j hj
    rcases processSrc_items env o st s j hj with hmem | ⟨hurl, hne⟩
    · exact hst j hmem
    · rw [hurl]
      exact hne

/-- Slug function for the concrete evaluations, consistent with the
external `slugify-url` package's documented behavior on the URLs used
here: strip a leading scheme. -/
def slugModel (s : String) : String :=
  if listStartsWith "http://".data s.data then String.mk (s.data.drop 7)
  else if listStartsWith "https://".data s.data then String.mk (s.data.drop 8)
  else s

/-- Concrete external environment for the counterexample and witness
evaluations: phantomjs available, both lookup services succeed (the
viewport lookup knows the keyword `iphone`), and exactly one local file
`fixture.html` exists. -/
def envDemo : ExternalEnv :=
  { phantomjsAvailable := true
    getRes := Except.ok [⟨"1366x768"⟩, ⟨"1280x1024"⟩]
    viewport := fun ks =>
      if ks = ["iphone"] then Except.ok [⟨"320x480"⟩]
      else Except.error "Couldn't find sizes"
    fileExists := fun s => s == "fixture.html"
    fileUrl := fun s => "file:///cwd/" ++ s
    slugify := slugModel
    parseCookie := fun s => s
    today := "2026-10-11" }

/-- Global options as produced by a plain `new Pageres()` construction. -/
def optsDemo : Options :=
  ⟨defaultFilenameTemplate, false, none, []⟩

/-- Same options with cropping enabled. -/
def optsCropDemo : Options :=
  ⟨defaultFilenameTemplate, true, none, []⟩

/-- Instance with one source whose tokens are `["w3counter", "foo"]`:
no explicit size, and the keyword list is strictly larger than the
popular-resolutions marker alone. -/
def pDemoC1 : PageresState :=
  srcAdd (pageresNew envDemo none) "http://a" ["w3counter", "foo"] none

/-- C1 counterexample: for the token list `["w3counter", "foo"]` the
explicit-size list is empty and the keyword list is not exactly the single
marker `w3counter`, yet the code takes the popular-resolutions branch (the
popular lookup is invoked and the viewport lookup is not), because
src/index.js line 117 tests `keywords.indexOf('w3counter') !== -1`, a
membership test rather than an equality test. -/
theorem claim_C1_counterexample :
    partSizes ["w3counter", "foo"] = [] ∧
    partKeywords ["w3counter", "foo"] ≠ ["w3counter"] ∧
    (runPageres envDemo pDemoC1).state.popularCalls = 1 ∧
    (runPageres envDemo pDemoC1).state.viewportCalls = [] ∧
    (runPageres envDemo pDemoC1).state.sizes = ["1366x768", "1280x1024"] := by
  decide

/-- C1 (amended): for every source whose token list partitions into an
empty explicit-size list, the popular-resolutions branch is taken if and
only if the keyword list contains the popular-resolutions marker
`w3counter` (not necessarily as its only element); on that branch the
resolved sizes equal the lookup's returned list, in returned order, and
the viewport lookup is never invoked. -/
theorem claim_C1_amended (env : ExternalEnv) (opts : Options) (src : Source)
    (entries : List ResEntry) (hurl : ¬src.url = "")
    (hsz : partSizes src.sizes = []) (hres : env.getRes = Except.ok entries) :
    (0 < (processSrc env opts initRunState src).popularCalls ↔
      "w3counter" ∈ partKeywords src.sizes) ∧
    ("w3counter" ∈ partKeywords src.sizes →
      (processSrc env opts initRunState src).sizes = entries.map ResEntry.item ∧
      (processSrc env opts initRunState src).items.map Job.size = entries.map ResEntry.item ∧
      (processSrc env opts initRunState src).viewportCalls = []) := by
  unfold processSrc
  rw [if_neg hurl]
  by_cases hm : "w3counter" ∈ partKeywords src.sizes
  · rw [if_pos ⟨hsz, hm⟩]
    unfold resolutionStep
    simp only [memoizeCall_nil, hres]
    refine ⟨by simp [initRunState, hm], fun _ => ⟨by simp [initRunState], ?_, rfl⟩⟩
    simp [initRunState, List.map_map, Function.comp_def, generate_size]
  · rw [if_neg (fun hc => hm hc.2)]
    refine ⟨?_, fun hmem => absurd hmem hm⟩
    by_cases hk : partKeywords src.sizes ≠ []
    · rw [if_pos hk, viewportStep_popularCalls]
      simp [initRunState, hm]
    · rw [if_neg hk, hsz]
      simp [initRunState, hm]

/-- Source used to witness the amended C1: only the marker keyword. -/
def srcW1 : Source :=
  ⟨"http://a", ["w3counter"], none⟩

/-- Witness for the amended C1, at the single-marker source `srcW1` under
`envDemo`. -/
theorem claim_C1_witness :
    (¬srcW1.url = "" ∧ partSizes srcW1.sizes = [] ∧
      envDemo.getRes = Except.ok [⟨"1366x768"⟩, ⟨"1280x1024"⟩]) ∧
    (0 < (processSrc envDemo optsDemo initRunState srcW1).popularCalls ↔
      "w3counter" ∈ partKeywords srcW1.sizes) ∧
    ("w3counter" ∈ partKeywords srcW1.sizes →
      (processSrc envDemo optsDemo initRunState srcW1).sizes =
        [ResEntry.mk "1366x768", ResEntry.mk "1280x1024"].map ResEntry.item ∧
      (processSrc envDemo optsDemo initRunState srcW1).items.map Job.size =
        [ResEntry.mk "1366x768", ResEntry.mk "1280x1024"].map ResEntry.item ∧
      (processSrc envDemo optsDemo initRunState srcW1).viewportCalls = []) :=
  ⟨⟨by decide, by decide, rfl⟩,
   (claim_C1_amended envDemo optsDemo srcW1 [⟨"1366x768"⟩, ⟨"1280x1024"⟩]
      (by decide) (by decide) rfl).1,
   (claim_C1_amended envDemo optsDemo srcW1 [⟨"1366x768"⟩, ⟨"1280x1024"⟩]
      (by decide) (by decide) rfl).2⟩

/-- Instance with a valid first source (explicit size only) and a second
source whose URL is missing (the empty string, the falsy JS string). -/
def pDemoC2 : PageresState :=
  srcAdd (srcAdd (pageresNew envDemo none) "http://good" ["1024x768"] none)
    "" ["1024x768"] none

/-- C2 counterexample: with the offending source registered second, the run
does fail with `URL required`, but a renderer subprocess has already been
spawned for the first source — the per-source URL check at src/index.js
lines 110 to 113 runs inside the iteration, after earlier sources have
synchronously generated their jobs. -/
theorem claim_C2_counterexample :
    (runPageres envDemo pDemoC2).result = Except.error "URL required" ∧
    (runPageres envDemo pDemoC2).state.items.map Job.srcUrl = ["http://good"] ∧
    (runPageres envDemo pDemoC2).state.items ≠ [] := by
  refine ⟨rfl, by decide, by decide⟩

/-- C2 (amended): for every registered source list in which some source has
a missing (falsy) URL, running fails with a fatal error, and no renderer
subprocess is ever spawned for an offending source itself — every spawned
job carries a non-falsy source URL; subprocesses may still be spawned for
the other registered sources. -/
theorem claim_C2_amended (env : ExternalEnv) (p : PageresState)
    (h : ∃ src ∈ p.src, src.url = "") :
    (∃ e, (runPageres env p).result = Except.error e) ∧
    ∀ job ∈ (runPageres env p).state.items, job.srcUrl ≠ "" := by
  unfold runPageres
  by_cases hp : env.phantomjsAvailable = false
  · rw [if_pos hp]
    exact ⟨⟨phantomMissingMsg, rfl⟩, fun job hj => by simp [initRunState] at hj⟩
  · rw [if_neg hp]
    have herr := runFold_missing_url env p.options p.src initRunState h
    have hitems := runFold_items env p.options p.src initRunState
      (fun j hj => by simp [initRunState] at hj)
    rcases he : (p.src.foldl (processSrc env p.options) initRunState).errors with _ | ⟨e, es⟩
    · exact absurd he herr
    · simp only [he]
      exact ⟨⟨e, rfl⟩, hitems⟩

/-- Witness for the amended C2, at the two-source instance `pDemoC2` whose
second source has the missing URL. -/
theorem claim_C2_witness :
    (∃ src ∈ pDemoC2.src, src.url = "") ∧
    (∃ e, (runPageres envDemo pDemoC2).result = Except.error e) ∧
    ∀ job ∈ (runPageres envDemo pDemoC2).state.items, job.srcUrl ≠ "" :=
  ⟨by decide, (claim_C2_amended envDemo pDemoC2 (by decide)).1,
   (claim_C2_amended envDemo pDemoC2 (by decide)).2⟩

/-- Instance with two sources that both resolve through the
popular-resolutions lookup with identical (empty) argument lists. -/
def pDemoC3 : PageresState :=
  srcAdd (srcAdd (pageresNew envDemo none) "http://a" ["w3counter"] none)
    "http://b" ["w3counter"] none

/-- C3 at its failing input: two identical no-argument popular-resolutions
lookups within one run invoke the underlying service twice, not at most
once — `var g = memoize(getRes);` at src/index.js line 162 (and likewise
`var v = memoize(viewport);` at line 194) builds a fresh, empty
memoization cache on every call, so `memoizeCall` always runs with an
empty cache and never shares an in-flight or completed result. -/
theorem claim_C3_theorem :
    (runPageres envDemo pDemoC3).state.popularCalls = 2 ∧
    ¬(runPageres envDemo pDemoC3).state.popularCalls ≤ 1 := by
  decide

/-- C4: token partitioning (src/index.js lines 107 and 108).  The
explicit-size list holds exactly the tokens that fully match
`\d{3,4}x\d{3,4}` (case-insensitive `x`), unchanged and deduplicated; the
keyword list holds exactly the non-matching tokens and equals the set
difference of the original token list against the explicit-size list; the
duplicated token list `["1024x768", "1024x768"]` yields exactly one size. -/
theorem claim_C4_theorem (tokens : List String) :
    (∀ t, t ∈ partSizes tokens ↔ (t ∈ tokens ∧ isResToken t = true)) ∧
    (partSizes tokens).Nodup ∧
    (∀ t, t ∈ partKeywords tokens ↔ (t ∈ tokens ∧ isResToken t = false)) ∧
    partKeywords tokens = listDifference tokens (partSizes tokens) ∧
    partSizes ["1024x768", "1024x768"] = ["1024x768"] := by
  have hs : ∀ t, t ∈ partSizes tokens ↔ (t ∈ tokens ∧ isResToken t = true) := by
    intro t
    rw [partSizes, mem_uniq, List.mem_filter]
  refine ⟨hs, nodup_uniq _, ?_, rfl, by decide⟩
  intro t
  rw [partKeywords, listDifference, List.mem_filter, decide_eq_true_eq]
  constructor
  · rintro ⟨h1, h2⟩
    refine ⟨h1, ?_⟩
    cases hr : isResToken t with
    | false => rfl
    | true => exact absurd ((hs t).mpr ⟨h1, hr⟩) h2
  · rintro ⟨h1, h2⟩
    refine ⟨h1, fun hmem => ?_⟩
    rw [((hs t).mp hmem).2] at h2
    exact Bool.noConfusion h2

/-- Token list used to witness C4. -/
def toksW4 : List String :=
  ["1024x768", "iphone", "1024x768"]

/-- Witness for C4, evaluated at the token list `toksW4`. -/
theorem claim_C4_witness :
    ("1024x768" ∈ partSizes toksW4) ∧
    ("iphone" ∈ partKeywords toksW4) ∧
    partSizes ["1024x768", "1024x768"] = ["1024x768"] :=
  ⟨((claim_C4_theorem toksW4).1 "1024x768").mpr (by decide),
   ((claim_C4_theorem toksW4).2.2.1 "iphone").mpr (by decide),
   (claim_C4_theorem toksW4).2.2.2.2⟩

/-- C5: for every source with a non-empty keyword list that does not take
the popular-resolutions branch, the viewport lookup is invoked with the
keyword list, each returned entry's resolution string is appended after
the explicit sizes, the unified list is deduplicated, and exactly one job
is generated per element of the deduplicated union
(src/index.js lines 122 to 125 and 192 to 213). -/
theorem claim_C5_theorem (env : ExternalEnv) (opts : Options) (src : Source)
    (entries : List ViewportEntry) (hurl : ¬src.url = "")
    (hk : partKeywords src.sizes ≠ [])
    (hnp : ¬(partSizes src.sizes = [] ∧ "w3counter" ∈ partKeywords src.sizes))
    (hres : env.viewport (partKeywords src.sizes) = Except.ok entries) :
    (processSrc env opts initRunState src).viewportCalls = [partKeywords src.sizes] ∧
    (processSrc env opts initRunState src).items =
      (uniq (partSizes src.sizes ++ entries.map ViewportEntry.size)).map
        (fun s => generate env src.url s (mergeOptions opts src.options)) ∧
    (processSrc env opts initRunState src).items.map Job.size =
      uniq (partSizes src.sizes ++ entries.map ViewportEntry.size) := by
  unfold processSrc
  rw [if_neg hurl, if_neg hnp, if_pos hk]
  unfold viewportStep
  simp only [memoizeCall_nil, hres]
  refine ⟨by simp [initRunState], by simp [initRunState], ?_⟩
  simp [initRunState, List.map_map, Function.comp_def, generate_size]

/-- Source used to witness C5: one explicit size and one device keyword. -/
def srcW5 : Source :=
  ⟨"http://a", ["1024x768", "iphone"], none⟩

/-- Witness for C5, at `srcW5` under `envDemo`: the explicit size and the
keyword's expansion form the deduplicated union, one job each. -/
theorem claim_C5_witness :
    (¬srcW5.url = "" ∧ partKeywords srcW5.sizes ≠ [] ∧
      envDemo.viewport (partKeywords srcW5.sizes) = Except.ok [⟨"320x480"⟩]) ∧
    (processSrc envDemo optsDemo initRunState srcW5).viewportCalls =
      [partKeywords srcW5.sizes] ∧
    (processSrc envDemo optsDemo initRunState srcW5).items.map Job.size =
      uniq (partSizes srcW5.sizes ++ [ViewportEntry.mk "320x480"].map ViewportEntry.size) :=
  ⟨⟨by decide, by decide, rfl⟩,
   (claim_C5_theorem envDemo optsDemo srcW5 [⟨"320x480"⟩]
      (by decide) (by decide) (by decide) rfl).1,
   (claim_C5_theorem envDemo optsDemo srcW5 [⟨"320x480"⟩]
      (by decide) (by decide) (by decide) rfl).2.2⟩

/-- The filename of a generated job, written out: the rendered template
over the stripped slug (of the raw URL for files, the normalized URL
otherwise), the size, the crop suffix and the date. -/
theorem generate_filename (env : ExternalEnv) (url size : String) (o : Options) :
    (generate env url size o).filename =
      renderTemplate (o.filename ++ ".png")
        (templateVars
          (stripSchemeWww (env.slugify (if env.fileExists url then url else normalizeUrl env url)))
          size (if o.crop then "-cropped" else "") env.today) := rfl

/-- C6: URL normalization in job generation (src/index.js lines 260 to
269).  The URL each job hands to the renderer is `normalizeUrl`; an
existing local file path becomes its `file://` form; otherwise a string
with the literal prefix `localhost` gets `http://` prepended (after which
it carries a scheme and is left alone); thereafter a string without a URL
scheme gets `http://` prepended, and a string already carrying a scheme
passes through unchanged. -/
theorem claim_C6_theorem (env : ExternalEnv) (url : String) :
    (∀ size opts, (generate env url size opts).url = normalizeUrl env url) ∧
    (env.fileExists url = true → normalizeUrl env url = env.fileUrl url) ∧
    (env.fileExists url = false → strStartsWith "localhost" url = true →
      normalizeUrl env url = "http://" ++ url) ∧
    (env.fileExists url = false → strStartsWith "localhost" url = false →
      hasProtocol url = false → normalizeUrl env url = "http://" ++ url) ∧
    (env.fileExists url = false → strStartsWith "localhost" url = false →
      hasProtocol url = true → normalizeUrl env url = url) := by
  refine ⟨fun size opts => generate_url env url size opts, ?_, ?_, ?_, ?_⟩
  · intro h1
    rw [normalizeUrl, if_pos h1]
  · intro h1 h2
    simp only [normalizeUrl, h1, h2, Bool.false_eq_true, if_false, if_true,
      hasProtocol_http_append]
  · intro h1 h2 h3
    simp only [normalizeUrl, h1, h2, h3, Bool.false_eq_true, if_false]
  · intro h1 h2 h3
    simp only [normalizeUrl, h1, h2, h3, Bool.false_eq_true, if_false, if_true]

/-- Witness for C6: a concrete existing file, a `localhost` URL, a bare
host and a URL already carrying a scheme, evaluated under `envDemo`. -/
theorem claim_C6_witness :
    envDemo.fileExists "fixture.html" = true ∧
    normalizeUrl envDemo "fixture.html" = "file:///cwd/fixture.html" ∧
    envDemo.fileExists "localhost:3000" = false ∧
    normalizeUrl envDemo "localhost:3000" = "http://localhost:3000" ∧
    normalizeUrl envDemo "example.com" = "http://example.com" ∧
    normalizeUrl envDemo "https://example.com" = "https://example.com" ∧
    (generate envDemo "example.com" "1024x768" optsDemo).url = "http://example.com" :=
  ⟨by decide,
   ((claim_C6_theorem envDemo "fixture.html").2.1 (by decide)).trans (by decide),
   by decide,
   ((claim_C6_theorem envDemo "localhost:3000").2.2.1 (by decide) (by decide)).trans (by decide),
   ((claim_C6_theorem envDemo "example.com").2.2.2.1 (by decide) (by decide) (by decide)).trans
     (by decide),
   (claim_C6_theorem envDemo "https://example.com").2.2.2.2 (by decide) (by decide) (by decide),
   ((claim_C6_theorem envDemo "example.com").1 "1024x768" optsDemo).trans
     (((claim_C6_theorem envDemo "example.com").2.2.2.1 (by decide) (by decide)
        (by decide)).trans (by decide))⟩

/-- C7: filename generation with the default template (src/index.js lines
271 to 276).  For URL `example.com` and size `1024x768` the rendered
filename is `example.com-1024x768.png` when cropping is off and
`example.com-1024x768-cropped.png` when cropping is on (the literal
`-cropped` sits right before the `.png` extension); the url placeholder
has any leading `http://www.`, `https://www.` or `www.` stripped by the
code itself, and a bare scheme is already removed by the slug step (the
`hslug` hypothesis states the external slugifier's documented output). -/
theorem claim_C7_theorem (env : ExternalEnv) (opts : Options)
    (hfile : env.fileExists "example.com" = false)
    (hslug : env.slugify "http://example.com" = "example.com")
    (hfn : opts.filename = defaultFilenameTemplate) :
    (opts.crop = false →
      (generate env "example.com" "1024x768" opts).filename = "example.com-1024x768.png") ∧
    (opts.crop = true →
      (generate env "example.com" "1024x768" opts).filename =
        "example.com-1024x768-cropped.png") ∧
    (∀ s : String, stripSchemeWww ("http://www." ++ s) = s ∧
      stripSchemeWww ("https://www." ++ s) = s ∧
      stripSchemeWww ("www." ++ s) = s) := by
  have h1 : normalizeUrl env "example.com" = "http://example.com" := by
    rw [normalizeUrl, if_neg (by rw [hfile]; exact Bool.false_ne_true)]
    decide
  refine ⟨?_, ?_, ?_⟩
  · intro hcrop
    rw [generate_filename, hfile, h1]
    simp only [Bool.false_eq_true, if_false]
    rw [hslug, hfn, hcrop]
    rfl
  · intro hcrop
    rw [generate_filename, hfile, h1]
    simp only [Bool.false_eq_true, if_false]
    rw [hslug, hfn, hcrop]
    rfl
  · intro s
    cases s with
    | mk d => exact ⟨rfl, rfl, rfl⟩

/-- Witness for C7, under `envDemo` with the default options (crop off)
and with cropping enabled. -/
theorem claim_C7_witness :
    envDemo.fileExists "example.com" = false ∧
    envDemo.slugify "http://example.com" = "example.com" ∧
    (generate envDemo "example.com" "1024x768" optsDemo).filename =
      "example.com-1024x768.png" ∧
    (generate envDemo "example.com" "1024x768" optsCropDemo).filename =
      "example.com-1024x768-cropped.png" ∧
    stripSchemeWww ("www." ++ "example.com") = "example.com" :=
  ⟨by decide, by decide,
   (claim_C7_theorem envDemo optsDemo (by decide) (by decide) rfl).1 rfl,
   (claim_C7_theorem envDemo optsCropDemo (by decide) (by decide) rfl).2.1 rfl,
   ((claim_C7_theorem envDemo optsDemo (by decide) (by decide) rfl).2.2 "example.com").2.2⟩

/-- C8: renderer stderr demultiplexing (src/index.js lines 307 to 320).
Chunks matching the engine-startup banner ` phantomjs[` are discarded;
otherwise a `WARN: `-prefixed chunk is re-emitted as a `warn` event with
the six-character prefix stripped (so `WARN: slow page` yields payload
`slow page`, and a warn is never the fatal action); any other chunk whose
trim is non-blank is emitted as an `error` event carrying the chunk's
text. -/
theorem claim_C8_theorem (data : String) :
    (containsSub " phantomjs[".data data.data = true →
      classifyStderr data = StderrAction.ignore) ∧
    (containsSub " phantomjs[".data data.data = false →
      listStartsWith "WARN: ".data data.data = true →
      classifyStderr data = StderrAction.warn (String.mk (data.data.drop 6))) ∧
    (containsSub " phantomjs[".data data.data = false →
      listStartsWith "WARN: ".data data.data = false →
      trimChars data.data ≠ [] →
      classifyStderr data = StderrAction.fatal data) ∧
    classifyStderr "WARN: slow page" = StderrAction.warn "slow page" ∧
    classifyStderr "WARN: slow page" ≠ StderrAction.fatal "WARN: slow page" := by
  refine ⟨?_, ?_, ?_, by decide, by decide⟩
  · intro h1
    rw [classifyStderr, if_pos h1]
  · intro h1 h2
    rw [classifyStderr, if_neg (by rw [h1]; exact Bool.false_ne_true), if_pos h2]
    unfold stripWarn
    rw [if_pos h2]
  · intro h1 h2 h3
    rw [classifyStderr, if_neg (by rw [h1]; exact Bool.false_ne_true),
      if_neg (by rw [h2]; exact Bool.false_ne_true),
      if_pos (fun hlen => h3 (List.length_eq_zero.mp hlen))]

/-- A stderr chunk matching the engine-startup banner. -/
def bannerChunk : String :=
  "2014 phantomjs[123] started"

/-- The warning chunk from the spec's example. -/
def warnChunk : String :=
  "WARN: slow page"

/-- A plain fatal stderr chunk. -/
def boomChunk : String :=
  "boom"

/-- Witness for C8: a banner chunk, the `WARN: slow page` chunk and a plain
fatal chunk. -/
theorem claim_C8_witness :
    containsSub " phantomjs[".data bannerChunk.data = true ∧
    classifyStderr bannerChunk = StderrAction.ignore ∧
    classifyStderr warnChunk = StderrAction.warn "slow page" ∧
    trimChars boomChunk.data ≠ [] ∧
    classifyStderr boomChunk = StderrAction.fatal boomChunk :=
  ⟨by decide,
   (claim_C8_theorem bannerChunk).1 (by decide),
   (claim_C8_theorem warnChunk).2.2.2.1,
   by decide,
   (claim_C8_theorem boomChunk).2.2.1 (by decide) (by decide) (by decide)⟩

/-- Instance with a single source mixing an explicit size and a device
keyword, the failing input of C9. -/
def pDemoC9 : PageresState :=
  srcAdd (pageresNew envDemo none) "http://a" ["1024x768", "iphone"] none

/-- C9 at its failing input: the run settles with no error and captures two
distinct resolved sizes (`1024x768` explicit, `320x480` from the `iphone`
expansion, one job each), yet `stats.screenshots` is 1 — in the viewport
branch only the lookup-returned sizes are pushed onto `self._sizes`
(src/index.js lines 202 to 205), so the explicit sizes of such a source
never reach the statistics, contradicting both the claim and the spec's
own side-effect clause that every resolved size is recorded. -/
theorem claim_C9_theorem :
    (runPageres envDemo pDemoC9).state.errors = [] ∧
    (runPageres envDemo pDemoC9).state.items.map Job.size = ["1024x768", "320x480"] ∧
    (uniq ((runPageres envDemo pDemoC9).state.items.map Job.size)).length = 2 ∧
    (runPageres envDemo pDemoC9).stats = some ⟨1, 1⟩ := by
  decide

/-- C10: invoking the constructor as a plain function call runs
`return new Pageres();` (src/index.js lines 33 to 35), forwarding no
arguments: for every caller-supplied options object the result is the
no-options instance — default filename template, empty cookie list, no
sources. -/
theorem claim_C10_theorem (env : ExternalEnv) (options : Option RawOptions) :
    pageresPlainCall env options = pageresNew env none ∧
    (pageresPlainCall env options).options.filename = defaultFilenameTemplate ∧
    (pageresPlainCall env options).options.cookies = [] ∧
    (pageresPlainCall env options).src = [] :=
  ⟨rfl, rfl, rfl, rfl⟩

end Pageres
